import Mathlib

/-!
Verification of the dev-connect REST backend (routes for posts and user
registration) against its specification.  The Express route handlers are
shallowly embedded as pure Lean functions over explicit stores: the
Mongo-backed post collection becomes a `List Post`, the user collection a
`List User`, and each handler maps a store and request parameters to a
response together with the updated store.  A handler that (like the
JavaScript source) can terminate without ever sending a response returns
`Option`-wrapped responses, `none` meaning that no response was sent.
-/

namespace DevConnect

/-- A like subdocument: a bare user reference (`likes` entries in the Post
schema hold only a `user` field). -/
structure Like where
  user : String
deriving DecidableEq, Repr

/-- A comment subdocument: identifier, author reference, denormalized
author name and avatar, text, and timestamp. -/
structure Comment where
  id : String
  user : String
  name : String
  avatar : String
  text : String
  date : Nat
deriving DecidableEq, Repr

/-- A post document: identifier, author reference, denormalized author
name and avatar, text, timestamp, and embedded like and comment lists. -/
structure Post where
  id : String
  user : String
  name : String
  avatar : String
  text : String
  date : Nat
  likes : List Like
  comments : List Comment
deriving DecidableEq, Repr

/-- A user document in the credential store: identifier, name, unique
email, (hashed) password, and derived avatar URL. -/
structure User where
  id : String
  name : String
  email : String
  password : String
  avatar : String
deriving DecidableEq, Repr

/-- Post.findById: the first stored post whose identifier matches (`none`
models the null result for an absent, well-formed identifier). -/
def findPost (posts : List Post) (pid : String) : Option Post :=
  posts.find? (fun p => p.id == pid)

/-- post.save(): persist a modified document, replacing the stored post
that carries the same identifier. -/
def savePost (posts : List Post) (p : Post) : List Post :=
  posts.map (fun q => if q.id == p.id then p else q)

/-- Response of PUT api/posts/like/:post_id. -/
inductive LikeResp where
  | alreadyLiked
  | ok (likes : List Like)
deriving DecidableEq, Repr

/-- HTTP status of a like response: 400 for the already-liked rejection,
200 for the returned like list. -/
def LikeResp.status : LikeResp → Nat
  | .alreadyLiked => 400
  | .ok _ => 200

/-- Handler of PUT api/posts/like/:post_id (source part_000 lines 119-134).
When `findPost` yields `none` the body dereferences the null post
(`post.likes`), the thrown TypeError reaches the empty `catch (err) {}`
block, and the handler sends no response at all: result `(none, posts)`.
Otherwise it rejects when a like by the requester is already present, and
else unshifts a new like onto the front of the list and saves. -/
def likeHandler (posts : List Post) (pid u : String) :
    Option LikeResp × List Post :=
  match findPost posts pid with
  | none => (none, posts)
  | some post =>
    if (post.likes.filter (fun l => l.user == u)).length > 0 then
      (some .alreadyLiked, posts)
    else
      let newLikes : List Like := ⟨u⟩ :: post.likes
      (some (.ok newLikes), savePost posts { post with likes := newLikes })

/-- Response of PUT api/posts/unlike/:post_id. -/
inductive UnlikeResp where
  | notLiked
  | ok (likes : List Like)
deriving DecidableEq, Repr

/-- HTTP status of an unlike response: 400 for the not-yet-liked
rejection, 200 for the returned like list. -/
def UnlikeResp.status : UnlikeResp → Nat
  | .notLiked => 400
  | .ok _ => 200

/-- Handler of PUT api/posts/unlike/:post_id (source part_000 lines
140-161).  As with `likeHandler`, an absent post makes the body throw on
`post.likes` and the empty catch swallows the error: no response.
Otherwise it rejects when no like by the requester exists, and else
computes `removeIndex` by mapping the like list to user strings and
taking `indexOf` of the requester, then splices one element out at that
index. -/
def unlikeHandler (posts : List Post) (pid u : String) :
    Option UnlikeResp × List Post :=
  match findPost posts pid with
  | none => (none, posts)
  | some post =>
    if (post.likes.filter (fun l => l.user == u)).length == 0 then
      (some .notLiked, posts)
    else
      let removeIndex := (post.likes.map Like.user).indexOf u
      let newLikes := post.likes.eraseIdx removeIndex
      (some (.ok newLikes), savePost posts { post with likes := newLikes })

/-- Response of DELETE api/posts/:post_id. -/
inductive DeletePostResp where
  | notFound
  | serverError
  | removed
deriving DecidableEq, Repr

/-- HTTP status of a delete-post response. -/
def DeletePostResp.status : DeletePostResp → Nat
  | .notFound => 404
  | .serverError => 500
  | .removed => 200

/-- Handler of DELETE api/posts/:post_id (source part_000 lines 89-113).
On a missing post it responds 404.  In the non-author branch the source
executes `res.status(401).res(\x7b msg \x7d)`: `.res` is not a function, so a
TypeError is thrown after the status was set; the catch block sees an
error without `kind === ObjectId` and sends `res.status(500)` Server
Error, which overrides the 401.  The post is not removed.  In the author
branch the post is removed from the store. -/
def deletePostHandler (posts : List Post) (pid u : String) :
    DeletePostResp × List Post :=
  match findPost posts pid with
  | none => (.notFound, posts)
  | some post =>
    if post.user != u then
      (.serverError, posts)
    else
      (.removed, posts.filter (fun p => !(p.id == pid)))

/-- Response of DELETE api/posts/comment/:post_id/:comment_id. -/
inductive DeleteCommentResp where
  | serverError
  | commentNotFound
  | unauthorized
  | ok (comments : List Comment)
deriving DecidableEq, Repr

/-- HTTP status of a delete-comment response. -/
def DeleteCommentResp.status : DeleteCommentResp → Nat
  | .serverError => 500
  | .commentNotFound => 404
  | .unauthorized => 401
  | .ok _ => 200

/-- Handler of DELETE api/posts/comment/:post_id/:comment_id (source
part_000 lines 208-241).  An absent post makes `post.comments` throw; the
catch logs and sends 500.  The comment is located by its identifier and
the requester must equal its author; but the removal index is then
recomputed by mapping the comment list to author strings and taking
`indexOf` of the requester, so the element spliced out is the first
comment authored by the requester, not necessarily the located one. -/
def deleteCommentHandler (posts : List Post) (pid cid u : String) :
    DeleteCommentResp × List Post :=
  match findPost posts pid with
  | none => (.serverError, posts)
  | some post =>
    match post.comments.find? (fun c => c.id == cid) with
    | none => (.commentNotFound, posts)
    | some comment =>
      if comment.user != u then
        (.unauthorized, posts)
      else
        let removeIndex := (post.comments.map Comment.user).indexOf u
        let newComments := post.comments.eraseIdx removeIndex
        (.ok newComments, savePost posts { post with comments := newComments })

/-- Response of POST api/posts. -/
inductive CreatePostResp where
  | validationError
  | serverError
  | ok (post : Post)
deriving DecidableEq, Repr

/-- HTTP status of a create-post response. -/
def CreatePostResp.status : CreatePostResp → Nat
  | .validationError => 400
  | .serverError => 500
  | .ok _ => 200

/-- Handler of POST api/posts (source part_000 lines 13-47).  The
validation layer rejects an empty text with a 400 before the body runs.
The body fetches the acting user with `select(-password)` and creates a
post that denormalizes the user's name and avatar; a null user makes
`user.name` throw, mapped to 500 by the catch block.  `nid` and `now`
stand for the store-assigned identifier and creation timestamp. -/
def createPostHandler (users : List User) (posts : List Post)
    (uid text nid : String) (now : Nat) : CreatePostResp × List Post :=
  if text == "" then
    (.validationError, posts)
  else
    match users.find? (fun w => w.id == uid) with
    | none => (.serverError, posts)
    | some user =>
      let post : Post :=
        { id := nid, user := uid, name := user.name, avatar := user.avatar,
          text := text, date := now, likes := [], comments := [] }
      (.ok post, posts ++ [post])

/-- Response of POST api/posts/comment/:post_id. -/
inductive AddCommentResp where
  | validationError
  | serverError
  | ok (comments : List Comment)
deriving DecidableEq, Repr

/-- Handler of POST api/posts/comment/:post_id (source part_000 lines
166-203).  Empty text is rejected with 400 by the validation layer.  The
body fetches the acting user and the post; a null user makes `user.name`
throw and a null post makes `post.comments.unshift` throw, both mapped to
500 by the catch block.  Otherwise a new comment denormalizing the user's
name and avatar is unshifted onto the front of the comment list. -/
def addCommentHandler (users : List User) (posts : List Post)
    (pid uid text cid : String) (now : Nat) : AddCommentResp × List Post :=
  if text == "" then
    (.validationError, posts)
  else
    match users.find? (fun w => w.id == uid), findPost posts pid with
    | none, _ => (.serverError, posts)
    | some _, none => (.serverError, posts)
    | some user, some post =>
      let c : Comment :=
        { id := cid, user := uid, name := user.name, avatar := user.avatar,
          text := text, date := now }
      let newComments := c :: post.comments
      (.ok newComments, savePost posts { post with comments := newComments })

/-- External collaborators of POST api/users, passed in explicitly: the
validation layer's email test, the gravatar URL derivation, the salt
produced by bcrypt.genSalt(10) for this registration, the bcrypt hash
function (password, salt), the JWT signing of the payload user id, and
the store-assigned identifier of the new user document. -/
structure RegisterDeps where
  validEmail : String → Bool
  gravatarUrl : String → String
  salt : String
  bcryptHash : String → String → String
  jwtSign : String → String
  newId : String

/-- Response of POST api/users. -/
inductive RegisterResp where
  | validationErrors (msgs : List String)
  | duplicateEmail
  | token (t : String)
deriving DecidableEq, Repr

/-- HTTP status of a registration response: 400 for validation errors and
the duplicate email rejection, 200 for the issued token. -/
def RegisterResp.status : RegisterResp → Nat
  | .validationErrors _ => 400
  | .duplicateEmail => 400
  | .token _ => 200

/-- Validation messages collected by the express-validator checks of POST
api/users (source part_001 lines 17-24): non-empty name, valid email,
password of at least 6 characters. -/
def registerValidationErrors (deps : RegisterDeps)
    (name email password : String) : List String :=
  (if name = "" then ["Name is required"] else []) ++
  (if deps.validEmail email then [] else ["Please include a valid email"]) ++
  (if password.length < 6 then
    ["Please enter a password with 6 or more characters"] else [])

/-- Handler of POST api/users (source part_001 lines 14-87).  Validation
errors short-circuit with a 400 before any store access.  If a user with
the given email exists, the handler responds 400 User already exists and
stores nothing.  Otherwise it derives the avatar from the email, hashes
the password with a fresh salt, saves the new user, and responds with a
signed token carrying the new identifier. -/
def registerHandler (deps : RegisterDeps) (users : List User)
    (name email password : String) : RegisterResp × List User :=
  let errs := registerValidationErrors deps name email password
  if errs.isEmpty then
    match users.find? (fun w => w.email == email) with
    | some _ => (.duplicateEmail, users)
    | none =>
      let u : User :=
        { id := deps.newId, name := name, email := email,
          password := deps.bcryptHash password deps.salt,
          avatar := deps.gravatarUrl email }
      (.token (deps.jwtSign deps.newId), users ++ [u])
  else
    (.validationErrors errs, users)

/-- A JSON value, used to state which keys a response body serializes. -/
inductive Json where
  | str (s : String)
  | num (n : Nat)
  | arr (xs : List Json)
  | obj (fields : List (String × Json))
deriving Repr

mutual

/-- All object keys occurring anywhere in a JSON value. -/
def Json.keys : Json → List String
  | .str _ => []
  | .num _ => []
  | .arr xs => Json.keysOfList xs
  | .obj fs => Json.keysOfFields fs

/-- All object keys occurring in a list of JSON values. -/
def Json.keysOfList : List Json → List String
  | [] => []
  | j :: js => j.keys ++ Json.keysOfList js

/-- All object keys occurring in a field list, the field names included. -/
def Json.keysOfFields : List (String × Json) → List String
  | [] => []
  | (k, j) :: fs => k :: (j.keys ++ Json.keysOfFields fs)

end

/-- Serialization of a like subdocument, mirroring the Like schema: a
single user field. -/
def Like.toJson (l : Like) : Json :=
  .obj [("user", .str l.user)]

/-- Serialization of a comment subdocument, mirroring the Comment schema
fields. -/
def Comment.toJson (c : Comment) : Json :=
  .obj [("id", .str c.id), ("user", .str c.user), ("name", .str c.name),
        ("avatar", .str c.avatar), ("text", .str c.text), ("date", .num c.date)]

/-- Serialization of a post document as sent by res.json(post), mirroring
the Post schema fields; the schema has no password field. -/
def Post.toJson (p : Post) : Json :=
  .obj [("id", .str p.id), ("user", .str p.user), ("name", .str p.name),
        ("avatar", .str p.avatar), ("text", .str p.text), ("date", .num p.date),
        ("likes", .arr (p.likes.map Like.toJson)),
        ("comments", .arr (p.comments.map Comment.toJson))]

/-- Serialization of the bodies sent by POST api/users: an errors array
for validation failures and the duplicate email rejection, and a bare
token object on success. -/
def RegisterResp.toJson : RegisterResp → Json
  | .validationErrors msgs =>
    .obj [("errors", .arr (msgs.map (fun m => .obj [("msg", .str m)])))]
  | .duplicateEmail =>
    .obj [("errors", .arr [.obj [("msg", .str "User already exists")]])]
  | .token t => .obj [("token", .str t)]

/-- A post's like list holds no duplicate user references. -/
def LikesNodup (p : Post) : Prop := (p.likes.map Like.user).Nodup

/-- Every post of the store satisfies the like-list uniqueness
invariant. -/
def StoreNodup (posts : List Post) : Prop := ∀ p ∈ posts, LikesNodup p

theorem mem_savePost {posts : List Post} {p q : Post}
    (h : q ∈ savePost posts p) : q = p ∨ q ∈ posts := by
  simp only [savePost, List.mem_map] at h
  obtain ⟨r, hr, hq⟩ := h
  by_cases hid : (r.id == p.id) = true
  · left
    rw [if_pos hid] at hq
    exact hq.symm
  · right
    rw [if_neg hid] at hq
    exact hq ▸ hr

theorem find?_savePost {posts : List Post} {post p : Post} {pid : String}
    (hfind : findPost posts pid = some post) (hid : p.id = post.id) :
    findPost (savePost posts p) pid = some p := by
  induction posts with
  | nil => simp [findPost] at hfind
  | cons q rest ih =>
    by_cases hq : (q.id == pid) = true
    · simp only [findPost, List.find?_cons, hq] at hfind
      have hqpost : q = post := Option.some.inj hfind
      have hqp : (q.id == p.id) = true := by
        rw [beq_iff_eq] at hq ⊢
        rw [hid, ← hqpost, hq]
      have hpid : (p.id == pid) = true := by
        rw [beq_iff_eq] at hq ⊢
        rw [hid, ← hqpost, hq]
      simp only [savePost, List.map_cons, if_pos hqp, findPost,
        List.find?_cons, hpid]
    · rw [Bool.not_eq_true] at hq
      simp only [findPost, List.find?_cons, hq] at hfind
      have hpostid : (post.id == pid) = true :=
        List.find?_some (p := fun r : Post => r.id == pid) hfind
      have hqp : (q.id == p.id) = false := by
        rw [beq_eq_false_iff_ne]
        rw [beq_iff_eq] at hpostid
        rw [hid, hpostid]
        intro hc
        rw [hc] at hq
        simp at hq
      simp only [savePost, List.map_cons, hqp, Bool.false_eq_true, if_false,
        findPost, List.find?_cons, hq]
      exact ih hfind

theorem mem_of_findPost {posts : List Post} {post : Post} {pid : String}
    (hfind : findPost posts pid = some post) : post ∈ posts :=
  List.mem_of_find?_eq_some hfind

theorem id_of_findPost {posts : List Post} {post : Post} {pid : String}
    (hfind : findPost posts pid = some post) : post.id = pid := by
  have := List.find?_some hfind
  rwa [beq_iff_eq] at this

theorem like_filter_length_pos_iff (ls : List Like) (u : String) :
    (ls.filter (fun l => l.user == u)).length > 0 ↔ ∃ l ∈ ls, l.user = u := by
  rw [gt_iff_lt, List.length_pos]
  constructor
  · intro hne
    obtain ⟨l, hl⟩ := List.exists_mem_of_ne_nil _ hne
    rw [List.mem_filter, beq_iff_eq] at hl
    exact ⟨l, hl.1, hl.2⟩
  · rintro ⟨l, hl, hu⟩
    exact List.ne_nil_of_mem (List.mem_filter.mpr ⟨hl, by rw [beq_iff_eq]; exact hu⟩)

theorem like_filter_eq_nil_iff (ls : List Like) (u : String) :
    ls.filter (fun l => l.user == u) = [] ↔ ∀ l ∈ ls, l.user ≠ u := by
  rw [List.filter_eq_nil_iff]
  constructor
  · intro h l hl
    have := h l hl
    rwa [beq_iff_eq] at this
  · intro h l hl
    rw [beq_iff_eq]
    exact h l hl

theorem eraseIdx_indexOf_like (ls : List Like) (u : String)
    (h : ∃ l ∈ ls, l.user = u) :
    ∃ pre suf, ls = pre ++ ⟨u⟩ :: suf ∧ (∀ l ∈ pre, l.user ≠ u) ∧
      ls.eraseIdx ((ls.map Like.user).indexOf u) = pre ++ suf := by
  induction ls with
  | nil => simp at h
  | cons l t ih =>
    by_cases hl : l.user = u
    · refine ⟨[], t, ?_, by simp, ?_⟩
      · cases l with
        | mk w => simp only [Like.user] at hl; rw [hl]; rfl
      · have hb : (l.user == u) = true := by rw [beq_iff_eq]; exact hl
        simp [List.indexOf_cons, hb]
    · have ht : ∃ l₂ ∈ t, l₂.user = u := by
        obtain ⟨l₂, hl₂, hu₂⟩ := h
        rcases List.mem_cons.mp hl₂ with heq | hmem
        · exact absurd (heq ▸ hu₂) hl
        · exact ⟨l₂, hmem, hu₂⟩
      obtain ⟨pre, suf, h1, h2, h3⟩ := ih ht
      refine ⟨l :: pre, suf, by rw [List.cons_append, ← h1], ?_, ?_⟩
      · intro x hx
        rcases List.mem_cons.mp hx with heq | hmem
        · rw [heq]; exact hl
        · exact h2 x hmem
      · have hb : (l.user == u) = false := beq_eq_false_iff_ne.mpr hl
        simp only [List.map_cons, List.indexOf_cons, hb, cond_false,
          List.eraseIdx_cons_succ, h3, List.cons_append]

/-- Claim C9: for every like or unlike request whose post identifier is
well-formed but matches no stored post, the null post is dereferenced
without a guard, the error is swallowed by the empty catch block, and
the operation returns neither a NotFound error nor any response at all;
the store is left unchanged. -/
theorem like_unlike_absent_post_swallowed (posts : List Post) (pid u : String)
    (h : findPost posts pid = none) :
    likeHandler posts pid u = (none, posts) ∧
    unlikeHandler posts pid u = (none, posts) := by
  refine ⟨?_, ?_⟩ <;> simp [likeHandler, unlikeHandler, h]

theorem like_unlike_absent_post_swallowed_witness :
    findPost [] "p0" = none ∧
    likeHandler [] "p0" "u0" = (none, []) ∧
    unlikeHandler [] "p0" "u0" = (none, []) :=
  ⟨rfl, like_unlike_absent_post_swallowed [] "p0" "u0" rfl⟩

/-- Claim C3: the claim states that every handler maps unexpected errors
to a logged generic 500 response, in particular the like and unlike
handlers.  This evaluates those two handlers on a request that makes the
body throw (no stored post, so the null post is dereferenced): the empty
catch block swallows the error and no response at all is produced, not a
500 response; the claim fails on the code. -/
theorem like_unlike_error_not_mapped_to_500 :
    (likeHandler [] "p9" "u9").1 = none ∧
    (unlikeHandler [] "p9" "u9").1 = none :=
  ⟨rfl, rfl⟩

/-- A concrete stored post authored by alice, used to evaluate the
delete-post handler. -/
def alicePost : Post :=
  { id := "p1", user := "alice", name := "Alice", avatar := "a.png",
    text := "hello", date := 0, likes := [], comments := [] }

/-- Claim C2: the claim states that deleting a stored post as a
non-author fails with HTTP 401.  In the source the non-author branch
executes res.status(401).res(...), and `.res` is not a function: the
thrown TypeError reaches the catch block, which responds 500 Server
Error instead.  The post does remain in the store unchanged.  This
evaluates the handler on a stored post of alice deleted by bob: the
response is the 500 server error, not a 401. -/
theorem deletePost_nonauthor_500_post_kept :
    deletePostHandler [alicePost] "p1" "bob" = (.serverError, [alicePost]) ∧
    DeletePostResp.status .serverError = 500 := by
  refine ⟨?_, rfl⟩
  rfl

/-- A first comment authored by u1, the one the buggy delete removes. -/
def olderComment : Comment :=
  { id := "c1", user := "u1", name := "N", avatar := "av",
    text := "first", date := 0 }

/-- A second comment authored by u1, the one targeted for deletion. -/
def newerComment : Comment :=
  { id := "c2", user := "u1", name := "N", avatar := "av",
    text := "second", date := 1 }

/-- A post carrying two comments by the same author u1. -/
def twoCommentPost : Post :=
  { id := "p1", user := "u1", name := "N", avatar := "av", text := "t",
    date := 0, likes := [], comments := [olderComment, newerComment] }

/-- Claim C1: the claim states that deleteComment removes exactly the
comment whose identifier equals the given one.  The source locates the
comment by identifier but then recomputes the removal index as the first
comment authored by the requester.  This evaluates the handler on a post
holding comments c1 and c2, both authored by u1, deleting c2 as u1: the
handler removes c1 and returns a comment list that still holds the
targeted comment c2 — the claim fails on the code. -/
theorem deleteComment_removes_wrong_comment :
    deleteCommentHandler [twoCommentPost] "p1" "c2" "u1" =
      (.ok [newerComment],
       [{ twoCommentPost with comments := [newerComment] }]) ∧
    newerComment.id = "c2" ∧ olderComment.id = "c1" := by
  refine ⟨?_, rfl, rfl⟩
  rfl

/-- Claim C4: for every stored post, liking it as a user already present
in the like list fails with AlreadyLiked (HTTP 400) and leaves the store
unchanged; liking it as a user not present prepends a new like for that
user to the front of the list; consequently a second like by the same
user returns AlreadyLiked, and when the list started empty the post's
like list after the first like has length 1. -/
theorem like_handler_correct (posts : List Post) (post : Post)
    (pid u : String) (hfind : findPost posts pid = some post) :
    ((∃ l ∈ post.likes, l.user = u) →
      likeHandler posts pid u = (some .alreadyLiked, posts) ∧
      LikeResp.status .alreadyLiked = 400) ∧
    ((∀ l ∈ post.likes, l.user ≠ u) →
      likeHandler posts pid u =
        (some (.ok (⟨u⟩ :: post.likes)),
         savePost posts { post with likes := ⟨u⟩ :: post.likes }) ∧
      (likeHandler (likeHandler posts pid u).2 pid u).1 =
        some .alreadyLiked ∧
      (post.likes = [] →
        ∀ q, findPost (likeHandler posts pid u).2 pid = some q →
          q.likes.length = 1)) := by
  constructor
  · intro hmem
    have hpos : (post.likes.filter (fun l => l.user == u)).length > 0 :=
      (like_filter_length_pos_iff _ _).mpr hmem
    refine ⟨?_, rfl⟩
    simp only [likeHandler, hfind, if_pos hpos]
  · intro habs
    have hneg : ¬ (post.likes.filter (fun l => l.user == u)).length > 0 := by
      rw [like_filter_length_pos_iff]
      rintro ⟨l, hl, hu⟩
      exact habs l hl hu
    have heq : likeHandler posts pid u =
        (some (.ok (⟨u⟩ :: post.likes)),
         savePost posts { post with likes := ⟨u⟩ :: post.likes }) := by
      simp only [likeHandler, hfind, if_neg hneg]
    have hfind2 : findPost (likeHandler posts pid u).2 pid =
        some { post with likes := ⟨u⟩ :: post.likes } := by
      rw [heq]
      exact find?_savePost hfind rfl
    have hpos2 : (((⟨u⟩ : Like) :: post.likes).filter
        (fun l => l.user == u)).length > 0 := by
      rw [like_filter_length_pos_iff]
      exact ⟨⟨u⟩, List.mem_cons_self _ _, rfl⟩
    refine ⟨heq, ?_, ?_⟩
    · have hsecond : likeHandler
          (savePost posts { post with likes := ⟨u⟩ :: post.likes }) pid u =
          (some .alreadyLiked,
           savePost posts { post with likes := ⟨u⟩ :: post.likes }) := by
        simp only [likeHandler,
          find?_savePost (p := { post with likes := ⟨u⟩ :: post.likes }) hfind rfl,
          if_pos hpos2]
      rw [heq]
      exact congrArg Prod.fst hsecond
    · intro hnil q hq
      rw [hfind2] at hq
      have hqeq := Option.some.inj hq
      rw [← hqeq]
      simp [hnil]

theorem like_handler_correct_witness :
    findPost [alicePost] "p1" = some alicePost ∧
    ((∀ l ∈ alicePost.likes, l.user ≠ "bob") →
      likeHandler [alicePost] "p1" "bob" =
        (some (.ok [⟨"bob"⟩]),
         savePost [alicePost] { alicePost with likes := [⟨"bob"⟩] }) ∧
      (likeHandler (likeHandler [alicePost] "p1" "bob").2 "p1" "bob").1 =
        some .alreadyLiked ∧
      (alicePost.likes = [] →
        ∀ q, findPost (likeHandler [alicePost] "p1" "bob").2 "p1" = some q →
          q.likes.length = 1)) :=
  ⟨rfl, (like_handler_correct [alicePost] alicePost "p1" "bob" rfl).2⟩

/-- Claim C5: for every stored post, unliking it as a user not present in
the like list fails with NotLiked (HTTP 400) and leaves the store, hence
the like list, unchanged; unliking it as a present user removes exactly
the first like entry carrying that user (located by index and excised),
keeping every other entry. -/
theorem unlike_handler_correct (posts : List Post) (post : Post)
    (pid u : String) (hfind : findPost posts pid = some post) :
    ((∀ l ∈ post.likes, l.user ≠ u) →
      unlikeHandler posts pid u = (some .notLiked, posts) ∧
      UnlikeResp.status .notLiked = 400) ∧
    ((∃ l ∈ post.likes, l.user = u) →
      ∃ pre suf, post.likes = pre ++ ⟨u⟩ :: suf ∧
        (∀ l ∈ pre, l.user ≠ u) ∧
        unlikeHandler posts pid u =
          (some (.ok (pre ++ suf)),
           savePost posts { post with likes := pre ++ suf })) := by
  constructor
  · intro habs
    have hnil : post.likes.filter (fun l => l.user == u) = [] :=
      (like_filter_eq_nil_iff _ _).mpr habs
    have hc : ((post.likes.filter (fun l => l.user == u)).length == 0) = true := by
      rw [hnil]
      rfl
    refine ⟨?_, rfl⟩
    simp only [unlikeHandler, hfind, hc, if_true]
  · intro hmem
    obtain ⟨pre, suf, h1, h2, h3⟩ := eraseIdx_indexOf_like post.likes u hmem
    have hpos : (post.likes.filter (fun l => l.user == u)).length > 0 :=
      (like_filter_length_pos_iff _ _).mpr hmem
    have hc : ((post.likes.filter (fun l => l.user == u)).length == 0) = false := by
      rw [beq_eq_false_iff_ne]
      omega
    refine ⟨pre, suf, h1, h2, ?_⟩
    simp only [unlikeHandler, hfind, hc, Bool.false_eq_true, if_false, h3]

theorem unlike_handler_correct_witness :
    findPost [{ alicePost with likes := [⟨"bob"⟩] }] "p1" =
      some { alicePost with likes := [⟨"bob"⟩] } ∧
    ((∀ l ∈ ({ alicePost with likes := [⟨"bob"⟩] } : Post).likes,
        l.user ≠ "carol") →
      unlikeHandler [{ alicePost with likes := [⟨"bob"⟩] }] "p1" "carol" =
        (some .notLiked, [{ alicePost with likes := [⟨"bob"⟩] }]) ∧
      UnlikeResp.status .notLiked = 400) :=
  ⟨rfl,
   (unlike_handler_correct [{ alicePost with likes := [⟨"bob"⟩] }]
      { alicePost with likes := [⟨"bob"⟩] } "p1" "carol" rfl).1⟩

theorem find?_append_none {α : Type} {q : α → Bool} {l1 l2 : List α}
    (h : l1.find? q = none) : (l1 ++ l2).find? q = l2.find? q := by
  induction l1 with
  | nil => rfl
  | cons a t ih =>
    simp only [List.find?_cons] at h
    cases hqa : q a with
    | true => rw [hqa] at h; simp at h
    | false =>
      rw [hqa] at h
      simp only [List.cons_append, List.find?_cons, hqa]
      exact ih h

theorem registerValidationErrors_eq_nil (deps : RegisterDeps)
    (name email pw : String) (hname : name ≠ "")
    (hvalid : deps.validEmail email = true) (hlen : 6 ≤ pw.length) :
    registerValidationErrors deps name email pw = [] := by
  simp [registerValidationErrors, hname, hvalid, Nat.not_lt.mpr hlen]

/-- The user document stored by a successful registration: store-assigned
identifier, the given name and email, the bcrypt hash of the password
under the fresh salt, and the gravatar-derived avatar. -/
def freshUser (deps : RegisterDeps) (name email pw : String) : User :=
  { id := deps.newId, name := name, email := email,
    password := deps.bcryptHash pw deps.salt,
    avatar := deps.gravatarUrl email }

/-- A concrete dependency bundle used to evaluate the registration
handler on sample inputs. -/
def sampleDeps : RegisterDeps :=
  { validEmail := fun e => e == "a@x.com"
    gravatarUrl := fun e => e ++ ".png"
    salt := "s0"
    bcryptHash := fun p s => s ++ p
    jwtSign := fun i => i ++ ".tok"
    newId := "id1" }

/-- Claim C6: for every email already present in the credential store, a
registration with that email (and otherwise valid fields) fails with the
DuplicateEmail error (HTTP 400) and stores nothing; consequently
registering twice with the same email on a store free of that email
leaves exactly one stored user carrying it, the second call failing with
DuplicateEmail and an unchanged store. -/
theorem register_duplicate_email (deps : RegisterDeps) (users : List User)
    (name email pw : String) (hname : name ≠ "")
    (hvalid : deps.validEmail email = true) (hlen : 6 ≤ pw.length) :
    ((users.find? (fun w => w.email == email)).isSome →
      registerHandler deps users name email pw = (.duplicateEmail, users) ∧
      RegisterResp.status .duplicateEmail = 400) ∧
    (users.find? (fun w => w.email == email) = none →
      ((registerHandler deps users name email pw).2.filter
          (fun w => w.email == email)).length = 1 ∧
      registerHandler deps (registerHandler deps users name email pw).2
          name email pw =
        (.duplicateEmail, (registerHandler deps users name email pw).2)) := by
  have herrs := registerValidationErrors_eq_nil deps name email pw
    hname hvalid hlen
  constructor
  · intro hsome
    obtain ⟨w, hw⟩ := Option.isSome_iff_exists.mp hsome
    refine ⟨?_, rfl⟩
    simp only [registerHandler, herrs, List.isEmpty_nil, if_true, hw]
  · intro hfresh
    have hstep : registerHandler deps users name email pw =
        (.token (deps.jwtSign deps.newId),
         users ++ [freshUser deps name email pw]) := by
      simp only [registerHandler, herrs, List.isEmpty_nil, if_true, hfresh,
        freshUser]
    have hfilter : users.filter (fun w => w.email == email) = [] := by
      rw [List.filter_eq_nil_iff]
      intro w hwmem
      exact List.find?_eq_none.mp hfresh w hwmem
    have hmatch : ((freshUser deps name email pw).email == email) = true := by
      rw [beq_iff_eq]
      rfl
    have hfind2 : List.find? (fun w => w.email == email)
        (users ++ [freshUser deps name email pw]) =
        some (freshUser deps name email pw) := by
      rw [find?_append_none hfresh]
      simp [List.find?_cons, hmatch]
    constructor
    · rw [hstep]
      simp only [List.filter_append, hfilter, List.nil_append,
        List.filter_cons, hmatch, if_true, List.filter_nil,
        List.length_cons, List.length_nil]
    · rw [hstep]
      simp only [registerHandler, herrs, List.isEmpty_nil, if_true, hfind2]

theorem register_duplicate_email_witness :
    ("Al" ≠ "" ∧ sampleDeps.validEmail "a@x.com" = true ∧
      6 ≤ "secret1".length) ∧
    ([] : List User).find? (fun w => w.email == "a@x.com") = none ∧
    (((registerHandler sampleDeps [] "Al" "a@x.com" "secret1").2.filter
        (fun w => w.email == "a@x.com")).length = 1 ∧
      registerHandler sampleDeps
          (registerHandler sampleDeps [] "Al" "a@x.com" "secret1").2
          "Al" "a@x.com" "secret1" =
        (.duplicateEmail,
         (registerHandler sampleDeps [] "Al" "a@x.com" "secret1").2)) :=
  ⟨⟨by decide, by decide, by decide⟩, rfl,
   (register_duplicate_email sampleDeps [] "Al" "a@x.com" "secret1"
      (by decide) (by decide) (by decide)).2 rfl⟩

/-- Claim C10: for every registration request whose password is shorter
than 6 characters, whose name is empty, or whose email fails the email
validation, the handler responds with a 400 validation error before any
store access and creates no user: the user store is returned
unchanged. -/
theorem register_validation_short_circuit (deps : RegisterDeps)
    (users : List User) (name email pw : String)
    (h : pw.length < 6 ∨ name = "" ∨ deps.validEmail email = false) :
    (∃ msgs, msgs ≠ [] ∧
      registerHandler deps users name email pw =
        (.validationErrors msgs, users)) ∧
    (registerHandler deps users name email pw).2 = users ∧
    RegisterResp.status (registerHandler deps users name email pw).1 = 400 := by
  have hne : registerValidationErrors deps name email pw ≠ [] := by
    rcases h with hpw | hn | he
    · apply List.ne_nil_of_mem
        (a := "Please enter a password with 6 or more characters")
      simp [registerValidationErrors, hpw]
    · apply List.ne_nil_of_mem (a := "Name is required")
      simp [registerValidationErrors, hn]
    · apply List.ne_nil_of_mem (a := "Please include a valid email")
      simp [registerValidationErrors, he]
  have hfalse : (registerValidationErrors deps name email pw).isEmpty = false := by
    cases hv : registerValidationErrors deps name email pw with
    | nil => exact absurd hv hne
    | cons a t => rfl
  have heq : registerHandler deps users name email pw =
      (.validationErrors (registerValidationErrors deps name email pw),
       users) := by
    simp only [registerHandler, hfalse, Bool.false_eq_true, if_false]
  exact ⟨⟨registerValidationErrors deps name email pw, hne, heq⟩,
    by rw [heq], by rw [heq]; rfl⟩

theorem register_validation_short_circuit_witness :
    (("123".length < 6 ∨ "Al" = "" ∨ sampleDeps.validEmail "a@x.com" = false) ∧
      (∃ msgs, msgs ≠ [] ∧
        registerHandler sampleDeps [] "Al" "a@x.com" "123" =
          (.validationErrors msgs, [])) ∧
      (registerHandler sampleDeps [] "Al" "a@x.com" "123").2 = [] ∧
      RegisterResp.status
          (registerHandler sampleDeps [] "Al" "a@x.com" "123").1 = 400) :=
  ⟨Or.inl (by decide),
   register_validation_short_circuit sampleDeps [] "Al" "a@x.com" "123"
     (Or.inl (by decide))⟩

theorem storeNodup_savePost {posts : List Post} {p : Post}
    (h : StoreNodup posts) (hp : LikesNodup p) :
    StoreNodup (savePost posts p) := by
  intro q hq
  rcases mem_savePost hq with rfl | hmem
  · exact hp
  · exact h q hmem

/-- Claim C7: for every store whose posts all satisfy the like-list
uniqueness invariant (no duplicate user references), the store produced
by any of the operations — like, unlike, post creation, comment
creation, post deletion, comment deletion — again satisfies it. -/
theorem likes_nodup_invariant (posts : List Post) (h : StoreNodup posts) :
    (∀ pid u, StoreNodup (likeHandler posts pid u).2) ∧
    (∀ pid u, StoreNodup (unlikeHandler posts pid u).2) ∧
    (∀ users uid text nid now,
      StoreNodup (createPostHandler users posts uid text nid now).2) ∧
    (∀ users pid uid text cid now,
      StoreNodup (addCommentHandler users posts pid uid text cid now).2) ∧
    (∀ pid u, StoreNodup (deletePostHandler posts pid u).2) ∧
    (∀ pid cid u, StoreNodup (deleteCommentHandler posts pid cid u).2) := by
  refine ⟨?_, ?_, ?_, ?_, ?_, ?_⟩
  · intro pid u
    cases hf : findPost posts pid with
    | none => simpa [likeHandler, hf] using h
    | some post =>
      by_cases hg : (post.likes.filter (fun l => l.user == u)).length > 0
      · simp only [likeHandler, hf, if_pos hg]
        exact h
      · simp only [likeHandler, hf, if_neg hg]
        apply storeNodup_savePost h
        unfold LikesNodup
        simp only [List.map_cons]
        rw [List.nodup_cons]
        refine ⟨?_, h post (mem_of_findPost hf)⟩
        rw [like_filter_length_pos_iff] at hg
        intro hmem
        rcases List.mem_map.mp hmem with ⟨l, hl, hu⟩
        exact hg ⟨l, hl, hu⟩
  · intro pid u
    cases hf : findPost posts pid with
    | none => simpa [unlikeHandler, hf] using h
    | some post =>
      cases hg : ((post.likes.filter (fun l => l.user == u)).length == 0) with
      | true =>
        simp only [unlikeHandler, hf, hg, if_true]
        exact h
      | false =>
        simp only [unlikeHandler, hf, hg, Bool.false_eq_true, if_false]
        apply storeNodup_savePost h
        unfold LikesNodup
        exact List.Nodup.sublist
          ((List.eraseIdx_sublist post.likes
            ((post.likes.map Like.user).indexOf u)).map Like.user)
          (h post (mem_of_findPost hf))
  · intro users uid text nid now
    by_cases ht : (text == "") = true
    · simp only [createPostHandler, ht, if_true]
      exact h
    · rw [Bool.not_eq_true] at ht
      cases hu : users.find? (fun w => w.id == uid) with
      | none =>
        simp only [createPostHandler, ht, Bool.false_eq_true, if_false, hu]
        exact h
      | some user =>
        simp only [createPostHandler, ht, Bool.false_eq_true, if_false, hu]
        intro q hq
        rcases List.mem_append.mp hq with hmem | hnew
        · exact h q hmem
        · rw [List.mem_singleton.mp hnew]
          exact List.nodup_nil
  · intro users pid uid text cid now
    by_cases ht : (text == "") = true
    · simp only [addCommentHandler, ht, if_true]
      exact h
    · rw [Bool.not_eq_true] at ht
      cases hu : users.find? (fun w => w.id == uid) with
      | none =>
        simp only [addCommentHandler, ht, Bool.false_eq_true, if_false, hu]
        exact h
      | some user =>
        cases hf : findPost posts pid with
        | none =>
          simp only [addCommentHandler, ht, Bool.false_eq_true, if_false,
            hu, hf]
          exact h
        | some post =>
          simp only [addCommentHandler, ht, Bool.false_eq_true, if_false,
            hu, hf]
          exact storeNodup_savePost h (h post (mem_of_findPost hf))
  · intro pid u
    cases hf : findPost posts pid with
    | none =>
      simp only [deletePostHandler, hf]
      exact h
    | some post =>
      by_cases hown : (post.user != u) = true
      · simp only [deletePostHandler, hf, hown, if_true]
        exact h
      · simp only [deletePostHandler, hf, hown, Bool.false_eq_true, if_false]
        intro q hq
        exact h q (List.mem_filter.mp hq).1
  · intro pid cid u
    cases hf : findPost posts pid with
    | none =>
      simp only [deleteCommentHandler, hf]
      exact h
    | some post =>
      cases hc : post.comments.find? (fun c => c.id == cid) with
      | none =>
        simp only [deleteCommentHandler, hf, hc]
        exact h
      | some comment =>
        by_cases hown : (comment.user != u) = true
        · simp only [deleteCommentHandler, hf, hc, hown, if_true]
          exact h
        · simp only [deleteCommentHandler, hf, hc, hown, Bool.false_eq_true,
            if_false]
          exact storeNodup_savePost h (h post (mem_of_findPost hf))

theorem likes_nodup_invariant_witness :
    StoreNodup [alicePost] ∧
    StoreNodup (likeHandler [alicePost] "p1" "bob").2 :=
  ⟨by intro p hp
      rw [List.mem_singleton.mp hp]
      exact List.nodup_nil,
   (likes_nodup_invariant [alicePost]
      (by intro p hp
          rw [List.mem_singleton.mp hp]
          exact List.nodup_nil)).1 "p1" "bob"⟩

theorem mem_keysOfList_like {x : String} {ls : List Like}
    (h : x ∈ Json.keysOfList (ls.map Like.toJson)) : x = "user" := by
  induction ls with
  | nil => simp [Json.keysOfList] at h
  | cons l t ih =>
    simp only [List.map_cons, Json.keysOfList] at h
    rcases List.mem_append.mp h with h1 | h2
    · simp only [Like.toJson, Json.keys, Json.keysOfFields,
        List.nil_append, List.mem_cons] at h1
      rcases h1 with h1 | h1
      · exact h1
      · simp [Json.keys, Json.keysOfFields] at h1
    · exact ih h2

theorem mem_keysOfList_comment {x : String} {cs : List Comment}
    (h : x ∈ Json.keysOfList (cs.map Comment.toJson)) :
    x ∈ ["id", "user", "name", "avatar", "text", "date"] := by
  induction cs with
  | nil => simp [Json.keysOfList] at h
  | cons c t ih =>
    simp only [List.map_cons, Json.keysOfList] at h
    rcases List.mem_append.mp h with h1 | h2
    · simp only [Comment.toJson, Json.keys, Json.keysOfFields,
        List.nil_append, List.append_nil, List.mem_cons,
        List.not_mem_nil, or_false] at h1
      simp only [List.mem_cons, List.not_mem_nil, or_false]
      tauto
    · exact ih h2

theorem password_notMem_post_keys (p : Post) :
    "password" ∉ (Post.toJson p).keys := by
  intro h
  have hlikes : "password" ∉ Json.keysOfList (p.likes.map Like.toJson) :=
    fun hx => absurd (mem_keysOfList_like hx) (by decide)
  have hcomments :
      "password" ∉ Json.keysOfList (p.comments.map Comment.toJson) :=
    fun hx => absurd (mem_keysOfList_comment hx) (by decide)
  simp only [Post.toJson, Json.keys, Json.keysOfFields, List.nil_append,
    List.append_nil, List.mem_cons, List.not_mem_nil, or_false,
    List.mem_append] at h
  rcases h with h | h | h | h | h | h | h | h
  · exact absurd h (by decide)
  · exact absurd h (by decide)
  · exact absurd h (by decide)
  · exact absurd h (by decide)
  · exact absurd h (by decide)
  · exact absurd h (by decide)
  · exact absurd h (by decide)
  · rcases h with h | h | h
    · exact hlikes h
    · exact absurd h (by decide)
    · exact hcomments h

theorem password_notMem_registerResp_keys (r : RegisterResp) :
    "password" ∉ (RegisterResp.toJson r).keys := by
  intro h
  cases r with
  | validationErrors msgs =>
    simp only [RegisterResp.toJson, Json.keys, Json.keysOfFields,
      List.mem_cons] at h
    rcases h with h | h
    · exact absurd h (by decide)
    · rw [List.append_nil] at h
      induction msgs with
      | nil => simp [Json.keysOfList] at h
      | cons m t ih =>
        simp only [List.map_cons, Json.keysOfList] at h
        rcases List.mem_append.mp h with h1 | h2
        · simp [Json.keys, Json.keysOfFields] at h1
        · exact ih h2
  | duplicateEmail =>
    simp [RegisterResp.toJson, Json.keys, Json.keysOfFields,
      Json.keysOfList] at h
  | token t =>
    simp [RegisterResp.toJson, Json.keys, Json.keysOfFields] at h

/-- Claim C8: a successful registration stores exactly one new user whose
password field is the bcrypt hash of the plaintext under the per-user
salt (the plaintext itself is not stored when hash and plaintext differ),
and no response ever serializes a password field: registration responses
carry only an errors array or the token, and post bodies (creation and
reads, single or listed) contain no password key anywhere. -/
theorem register_hashes_password_and_no_password_key (deps : RegisterDeps)
    (users : List User) (name email pw : String) (hname : name ≠ "")
    (hvalid : deps.validEmail email = true) (hlen : 6 ≤ pw.length)
    (hfresh : users.find? (fun w => w.email == email) = none) :
    ((registerHandler deps users name email pw).2 =
      users ++ [freshUser deps name email pw] ∧
     (freshUser deps name email pw).password = deps.bcryptHash pw deps.salt) ∧
    (∀ r : RegisterResp, "password" ∉ (RegisterResp.toJson r).keys) ∧
    (∀ p : Post, "password" ∉ (Post.toJson p).keys) ∧
    (∀ ps : List Post, "password" ∉ (Json.arr (ps.map Post.toJson)).keys) := by
  have herrs := registerValidationErrors_eq_nil deps name email pw
    hname hvalid hlen
  refine ⟨⟨?_, rfl⟩, password_notMem_registerResp_keys,
    password_notMem_post_keys, ?_⟩
  · simp only [registerHandler, herrs, List.isEmpty_nil, if_true, hfresh,
      freshUser]
  · intro ps hmem
    simp only [Json.keys] at hmem
    induction ps with
    | nil => simp [Json.keysOfList] at hmem
    | cons p t ih =>
      simp only [List.map_cons, Json.keysOfList] at hmem
      rcases List.mem_append.mp hmem with h1 | h2
      · exact password_notMem_post_keys p h1
      · exact ih h2

theorem register_hashes_password_and_no_password_key_witness :
    ("Al" ≠ "" ∧ sampleDeps.validEmail "a@x.com" = true ∧
      6 ≤ "secret1".length ∧
      ([] : List User).find? (fun w => w.email == "a@x.com") = none) ∧
    ((registerHandler sampleDeps [] "Al" "a@x.com" "secret1").2 =
      [freshUser sampleDeps "Al" "a@x.com" "secret1"] ∧
     (freshUser sampleDeps "Al" "a@x.com" "secret1").password =
       sampleDeps.bcryptHash "secret1" sampleDeps.salt) :=
  ⟨⟨by decide, by decide, by decide, rfl⟩,
   (register_hashes_password_and_no_password_key sampleDeps []
      "Al" "a@x.com" "secret1" (by decide) (by decide) (by decide) rfl).1⟩

end DevConnect
